import Mathlib

/-!
# Verification of the website-monitor check-orchestration engine

A shallow embedding of the check-orchestration and state-transition engine
of the website-monitor repository (src/index.ts, the generic multi-monitor
variant, plus the monitor registry filter in src/monitors/index.ts).

Modelling decisions:
* The SQLite `checks` table is a list of rows in insertion order; the
  AUTOINCREMENT id is modelled by a `nextId` counter so ids are strictly
  increasing along the list.
* The `error_streak` table (monitor TEXT PRIMARY KEY) is an association
  list from monitor name to its streak row; the code maintains at most one
  row per monitor.
* Time is a natural number of minutes; the SQL comparison
  `started_at <= datetime('now', '-15 minutes')` becomes
  `startedAt + 15 ≤ now`.
* Environment topics (`NTFY_TOPIC`, `NTFY_DEBUG_TOPIC`) are `Option String`
  (`none` = unset/empty, both falsy in the JS guards).
* Each `fetch` to the push service consumes the head of a `List Bool` of
  delivery outcomes (`headD true`: an unstated outcome is a success);
  `false` makes `sendNotification` throw, as the code does on a non-ok
  response.  A successful delivery is recorded as an emitted `Event`.
* A thrown JS exception is an `Option String` threaded through the result;
  inside `runCheck`'s try block it transfers control to the catch block,
  and an exception raised inside the catch block escapes `runCheck`.
-/

namespace WebsiteMonitor

/-- One row of the `checks` table. -/
structure CheckRow where
  id : Nat
  monitor : String
  state : String
  notified : Bool
deriving Repr, DecidableEq

/-- One row of the `error_streak` table (keyed by monitor name). -/
structure StreakRow where
  startedAt : Nat
  notified : Bool
deriving Repr, DecidableEq

/-- The SQLite database: the append-only `checks` table with its
AUTOINCREMENT counter, and the `error_streak` table as an association
list from monitor name to streak row. -/
structure DB where
  checks : List CheckRow
  nextId : Nat
  streaks : List (String × StreakRow)
deriving Repr, DecidableEq

/-- `SELECT ... FROM error_streak WHERE monitor = ?` (primary-key lookup). -/
def getStreak : List (String × StreakRow) → String → Option StreakRow
  | [], _ => none
  | (n, r) :: rest, m => if n = m then some r else getStreak rest m

/-- `DELETE FROM error_streak WHERE monitor = ?`: drop every row whose key
matches. -/
def deleteStreak : List (String × StreakRow) → String → List (String × StreakRow)
  | [], _ => []
  | (n, r) :: rest, m =>
    if n = m then deleteStreak rest m else (n, r) :: deleteStreak rest m

/-- `UPDATE error_streak SET notified = 1 WHERE monitor = ?`: set the flag
on every row whose key matches. -/
def setStreakNotified : List (String × StreakRow) → String → List (String × StreakRow)
  | [], _ => []
  | (n, r) :: rest, m =>
    if n = m then (n, { r with notified := true }) :: setStreakNotified rest m
    else (n, r) :: setStreakNotified rest m

/-- `getLastState`: `SELECT state FROM checks WHERE monitor = ?
ORDER BY id DESC LIMIT 1`.  Since rows are stored in insertion order with
strictly increasing ids, this is the last matching row of the list. -/
def getLastState (db : DB) (m : String) : Option String :=
  ((db.checks.filter (fun r => (r.monitor = m : Bool))).getLast?).map (·.state)

/-- `saveState`: `INSERT INTO checks (monitor, state, notified)`, the id
assigned by AUTOINCREMENT. -/
def saveState (db : DB) (m state : String) (notified : Bool) : DB :=
  { db with
    checks := db.checks ++ [⟨db.nextId, m, state, notified⟩]
    nextId := db.nextId + 1 }

/-- Well-formedness of the `checks` table: ids strictly increase in
insertion order and stay below the AUTOINCREMENT counter, as SQLite
guarantees. -/
def dbWF (db : DB) : Prop :=
  db.checks.Pairwise (fun a b => a.id < b.id) ∧ ∀ r ∈ db.checks, r.id < db.nextId

/-- Environment configuration read by the engine. -/
structure Config where
  ntfyTopic : Option String
  ntfyDebugTopic : Option String
deriving Repr, DecidableEq

/-- A successful probe observation (`CheckResult`). -/
structure CheckResult where
  state : String
  detail : String
deriving Repr, DecidableEq

/-- A delivered push notification, by kind.  An event is recorded exactly
when a `fetch` to the push service succeeds. -/
inductive Event where
  | firstObservation (monitor state : String)
  | stateChanged (monitor state prevState : String)
  | debugPing (monitor state : String)
  | errorThreshold (monitor : String)
  | recovery (monitor : String)
deriving Repr, DecidableEq

/-- Outcome of one dispatcher call: the delivered event (if any), the
remaining delivery outcomes, and the thrown error (if any). -/
abbrev SendOut := Option Event × List Bool × Option String

/-- `sendNotification(payload, topic?)`: the target topic is
`topic ?? NTFY_TOPIC`; with no topic it returns without any delivery
attempt; otherwise one delivery is attempted and a failed response
throws. -/
def sendNotification (cfg : Config) (topic : Option String) (ev : Event)
    (net : List Bool) : SendOut :=
  match topic.orElse (fun _ => cfg.ntfyTopic) with
  | none => (none, net, none)
  | some _ =>
    if net.headD true then (some ev, net.tail, none)
    else (none, net.tail, some "ntfy error")

/-- `notifyError`: returns immediately when `NTFY_TOPIC` is unset,
otherwise dispatches the error-threshold alert on the primary topic. -/
def notifyError (cfg : Config) (m : String) (net : List Bool) : SendOut :=
  match cfg.ntfyTopic with
  | none => (none, net, none)
  | some _ => sendNotification cfg none (.errorThreshold m) net

/-- `notifyRecovery`: returns immediately when `NTFY_TOPIC` is unset,
otherwise dispatches the recovery alert on the primary topic. -/
def notifyRecovery (cfg : Config) (m : String) (net : List Bool) : SendOut :=
  match cfg.ntfyTopic with
  | none => (none, net, none)
  | some _ => sendNotification cfg none (.recovery m) net

/-- The result of one `runCheck` pass for one monitor: the database after
the pass, the delivered notifications in order, the remaining delivery
outcomes, and — when an exception was raised inside the catch block — the
error that escapes `runCheck`. -/
structure RunOut where
  db : DB
  events : List Event
  net : List Bool
  escaped : Option String
deriving Repr, DecidableEq

/-- The catch block of `runCheck`: drive the error-streak state machine.
No streak row: insert one started now.  A non-notified streak past the
15-minute threshold: send the error alert, then mark the streak notified
(skipped, and the error escapes, when the alert dispatch itself throws).
Otherwise: no-op. -/
def handleFailure (cfg : Config) (m : String) (now : Nat) (net : List Bool)
    (db : DB) : RunOut :=
  match getStreak db.streaks m with
  | none =>
    ⟨{ db with streaks := (m, ⟨now, false⟩) :: db.streaks }, [], net, none⟩
  | some s =>
    if s.notified then ⟨db, [], net, none⟩
    else if s.startedAt + 15 ≤ now then
      match notifyError cfg m net with
      | (ev, net1, none) =>
        ⟨{ db with streaks := setStreakNotified db.streaks m }, ev.toList,
          net1, none⟩
      | (_, net1, some e) => ⟨db, [], net1, some e⟩
    else ⟨db, [], net, none⟩

/-- Shared tail of the three success branches of `runCheck`: a content
dispatch result either completes (persist the new row via `saveState`) or
throws, in which case control transfers to the catch block with the
database as mutated so far.  `recEv` is the recovery event delivered
earlier in the pass, which stays in the output either way. -/
def finishPass (cfg : Config) (m : String) (now : Nat) (db1 : DB)
    (state : String) (flag : Bool) (recEv : Option Event) (d : SendOut) :
    RunOut :=
  match d with
  | (ev, net1, none) =>
    ⟨saveState db1 m state flag, recEv.toList ++ ev.toList, net1, none⟩
  | (_, net1, some _) =>
    let o := handleFailure cfg m now net1 db1
    ⟨o.db, recEv.toList ++ o.events, o.net, o.escaped⟩

/-- `runCheck(monitor, db)` for one monitor at one tick.  On probe success:
recovery handling (alert if the streak was notified, then an unconditional
streak delete), then the transition evaluation against `getLastState`, a
dispatch per branch, and `saveState` with the branch's notified flag.  On
probe failure (or any exception thrown inside the try block): the catch
block `handleFailure`. -/
def runCheck (cfg : Config) (m : String) (probe : Except String CheckResult)
    (now : Nat) (net : List Bool) (db : DB) : RunOut :=
  match probe with
  | .error _ => handleFailure cfg m now net db
  | .ok result =>
    match
      (if ((getStreak db.streaks m).map (·.notified)).getD false then
        notifyRecovery cfg m net
      else (none, net, none) : SendOut) with
    | (_, net1, some _) =>
      -- the recovery dispatch threw before the streak delete ran
      let o := handleFailure cfg m now net1 db
      ⟨o.db, o.events, o.net, o.escaped⟩
    | (recEv, net1, none) =>
      let db1 : DB := { db with streaks := deleteStreak db.streaks m }
      match getLastState db1 m with
      | none =>
        finishPass cfg m now db1 result.state true recEv
          (sendNotification cfg none (.firstObservation m result.state) net1)
      | some prev =>
        if result.state ≠ prev then
          finishPass cfg m now db1 result.state true recEv
            (sendNotification cfg none (.stateChanged m result.state prev) net1)
        else
          match cfg.ntfyDebugTopic with
          | some dbgTopic =>
            finishPass cfg m now db1 result.state false recEv
              (sendNotification cfg (some dbgTopic) (.debugPing m result.state)
                net1)
          | none =>
            ⟨saveState db1 m result.state false, recEv.toList, net1, none⟩

/-- `runAllChecks`: one orchestration pass over the enabled monitors in
order, sequentially, against one database.  An exception escaping a
monitor's `runCheck` aborts the remainder of the pass.  Also returns the
list of monitors that were actually processed. -/
def runAllChecks (cfg : Config) (inputs : List (String × Except String CheckResult))
    (now : Nat) (net : List Bool) (db : DB) :
    DB × List Event × List String × Option String :=
  match inputs with
  | [] => (db, [], [], none)
  | (m, probe) :: rest =>
    let o := runCheck cfg m probe now net db
    match o.escaped with
    | some e => (o.db, o.events, [m], some e)
    | none =>
      let (db2, evs, names, esc) := runAllChecks cfg rest now o.net o.db
      (db2, o.events ++ evs, m :: names, esc)

/-- Driver for a single monitor over successive scheduler ticks, each tick
given as (time, probe outcome); all deliveries succeed.  Events are tagged
with the time of the tick that emitted them. -/
def runTicks (cfg : Config) (m : String)
    (ticks : List (Nat × Except String CheckResult)) (db : DB) :
    DB × List (Nat × Event) :=
  match ticks with
  | [] => (db, [])
  | (t, probe) :: rest =>
    let o := runCheck cfg m probe t [] db
    let (db1, evs) := runTicks cfg m rest o.db
    (db1, o.events.map (fun e => (t, e)) ++ evs)

/-- The registry filter of src/monitors/index.ts: a monitor is enabled
unless the environment variable MONITOR_<NAME> is the exact string
"false". -/
def monitorEnabled (env : String → Option String) (name : String) : Bool :=
  !(env ("MONITOR_" ++ name.toUpper) = some "false" : Bool)

/-- `monitors = all.filter(...)`: the enabled subset of the registry. -/
def enabledMonitors (env : String → Option String) (all : List String) :
    List String :=
  all.filter (monitorEnabled env)

/-! ## Basic lemmas about the store operations -/

@[simp]
theorem getStreak_nil (m : String) : getStreak [] m = none := rfl

@[simp]
theorem getStreak_cons (n : String) (r : StreakRow)
    (l : List (String × StreakRow)) (m : String) :
    getStreak ((n, r) :: l) m = if n = m then some r else getStreak l m := rfl

theorem getStreak_deleteStreak_self (l : List (String × StreakRow))
    (m : String) : getStreak (deleteStreak l m) m = none := by
  induction l with
  | nil => rfl
  | cons p rest ih =>
    obtain ⟨n, r⟩ := p
    by_cases h : n = m
    · simp [deleteStreak, h, ih]
    · simp [deleteStreak, getStreak, h, ih]

theorem getStreak_deleteStreak_ne (l : List (String × StreakRow))
    (m m' : String) (h : m' ≠ m) :
    getStreak (deleteStreak l m) m' = getStreak l m' := by
  induction l with
  | nil => rfl
  | cons p rest ih =>
    obtain ⟨n, r⟩ := p
    by_cases hn : n = m
    · subst hn
      simp [deleteStreak, getStreak, Ne.symm h, ih]
    · by_cases hm : n = m'
      · simp [deleteStreak, getStreak, hn, hm, h]
      · simp [deleteStreak, getStreak, hn, hm, ih]

theorem getStreak_setStreakNotified_self (l : List (String × StreakRow))
    (m : String) :
    getStreak (setStreakNotified l m) m
      = (getStreak l m).map (fun s => { s with notified := true }) := by
  induction l with
  | nil => rfl
  | cons p rest ih =>
    obtain ⟨n, r⟩ := p
    by_cases h : n = m
    · subst h
      simp [setStreakNotified, getStreak, ih]
    · simp [setStreakNotified, getStreak, h, ih]

theorem getStreak_setStreakNotified_ne (l : List (String × StreakRow))
    (m m' : String) (h : m' ≠ m) :
    getStreak (setStreakNotified l m) m' = getStreak l m' := by
  induction l with
  | nil => rfl
  | cons p rest ih =>
    obtain ⟨n, r⟩ := p
    by_cases hn : n = m
    · subst hn
      simp [setStreakNotified, getStreak, Ne.symm h, ih]
    · by_cases hm : n = m'
      · simp [setStreakNotified, getStreak, hn, hm, h]
      · simp [setStreakNotified, getStreak, hn, hm, ih]

@[simp]
theorem checks_update_streaks (db : DB) (s : List (String × StreakRow)) :
    ({ db with streaks := s } : DB).checks = db.checks := rfl

@[simp]
theorem nextId_update_streaks (db : DB) (s : List (String × StreakRow)) :
    ({ db with streaks := s } : DB).nextId = db.nextId := rfl

@[simp]
theorem getLastState_update_streaks (db : DB) (s : List (String × StreakRow))
    (m : String) : getLastState { db with streaks := s } m = getLastState db m :=
  rfl

/-- With an empty outcome list every delivery succeeds: the dispatcher
delivers exactly when a topic resolves, and never throws. -/
theorem sendNotification_nil (cfg : Config) (topic : Option String)
    (ev : Event) :
    sendNotification cfg topic ev []
      = ((topic.orElse fun _ => cfg.ntfyTopic).map fun _ => ev, [], none) := by
  unfold sendNotification
  cases h : topic.orElse fun _ => cfg.ntfyTopic <;> simp [h, List.headD]

theorem notifyError_nil (cfg : Config) (m : String) :
    notifyError cfg m []
      = (cfg.ntfyTopic.map fun _ => Event.errorThreshold m, [], none) := by
  unfold notifyError
  cases h : cfg.ntfyTopic <;> simp [h, sendNotification_nil, Option.orElse]

theorem notifyRecovery_nil (cfg : Config) (m : String) :
    notifyRecovery cfg m []
      = (cfg.ntfyTopic.map fun _ => Event.recovery m, [], none) := by
  unfold notifyRecovery
  cases h : cfg.ntfyTopic <;> simp [h, sendNotification_nil, Option.orElse]

/-- Evaluation of a successful-probe pass when every delivery succeeds:
recovery alert if the streak was notified, unconditional streak delete,
then the transition branch with its dispatch and `saveState`. -/
theorem runCheck_ok_nil (cfg : Config) (m : String) (result : CheckResult)
    (now : Nat) (db : DB) :
    runCheck cfg m (.ok result) now [] db =
      let recEv : Option Event :=
        if ((getStreak db.streaks m).map (·.notified)).getD false then
          cfg.ntfyTopic.map fun _ => Event.recovery m
        else none
      let db1 : DB := { db with streaks := deleteStreak db.streaks m }
      match getLastState db m with
      | none =>
        ⟨saveState db1 m result.state true,
          recEv.toList ++ (cfg.ntfyTopic.map fun _ =>
            Event.firstObservation m result.state).toList, [], none⟩
      | some prev =>
        if result.state ≠ prev then
          ⟨saveState db1 m result.state true,
            recEv.toList ++ (cfg.ntfyTopic.map fun _ =>
              Event.stateChanged m result.state prev).toList, [], none⟩
        else
          match cfg.ntfyDebugTopic with
          | some _ =>
            ⟨saveState db1 m result.state false,
              recEv.toList ++ [Event.debugPing m result.state], [], none⟩
          | none =>
            ⟨saveState db1 m result.state false, recEv.toList, [], none⟩ := by
  cases hrec : ((getStreak db.streaks m).map (·.notified)).getD false <;>
    cases hprev : getLastState db m <;>
      cases hdbg : cfg.ntfyDebugTopic <;>
        simp [runCheck, hrec, hprev, hdbg, notifyRecovery_nil,
          sendNotification_nil, finishPass, Option.orElse]

@[simp]
theorem saveState_streaks (db : DB) (m st : String) (b : Bool) :
    (saveState db m st b).streaks = db.streaks := rfl

@[simp]
theorem runCheck_error (cfg : Config) (m msg : String) (now : Nat)
    (net : List Bool) (db : DB) :
    runCheck cfg m (.error msg) now net db = handleFailure cfg m now net db :=
  rfl

theorem handleFailure_noStreak (cfg : Config) (m : String) (now : Nat)
    (net : List Bool) (db : DB) (h : getStreak db.streaks m = none) :
    handleFailure cfg m now net db
      = ⟨{ db with streaks := (m, ⟨now, false⟩) :: db.streaks }, [], net, none⟩ := by
  unfold handleFailure
  rw [h]

theorem handleFailure_notified (cfg : Config) (m : String) (t0 now : Nat)
    (net : List Bool) (db : DB)
    (h : getStreak db.streaks m = some ⟨t0, true⟩) :
    handleFailure cfg m now net db = ⟨db, [], net, none⟩ := by
  unfold handleFailure
  rw [h]
  simp

theorem handleFailure_young (cfg : Config) (m : String) (t0 now : Nat)
    (net : List Bool) (db : DB)
    (h : getStreak db.streaks m = some ⟨t0, false⟩)
    (ht : ¬ t0 + 15 ≤ now) :
    handleFailure cfg m now net db = ⟨db, [], net, none⟩ := by
  unfold handleFailure
  rw [h]
  simp [ht]

theorem handleFailure_overdue_nil (cfg : Config) (topic m : String)
    (t0 now : Nat) (db : DB)
    (h : getStreak db.streaks m = some ⟨t0, false⟩)
    (ht : t0 + 15 ≤ now) (htopic : cfg.ntfyTopic = some topic) :
    handleFailure cfg m now [] db
      = ⟨{ db with streaks := setStreakNotified db.streaks m },
          [Event.errorThreshold m], [], none⟩ := by
  unfold handleFailure
  rw [h]
  simp [ht, notifyError_nil, htopic]

/-! ## C5: the first-ever check always notifies -/

/-- C5: with no prior CheckRecord for the target, the pass dispatches a
FirstObservation notification regardless of the observed state value and
persists exactly one CheckRecord with that state and notified = true
(shown here with the primary topic configured and delivery succeeding, so
the dispatch is an actual delivery). -/
theorem runCheck_firstObservation (cfg : Config) (topic m : String)
    (result : CheckResult) (now : Nat) (db : DB)
    (htopic : cfg.ntfyTopic = some topic)
    (hprev : getLastState db m = none) :
    (runCheck cfg m (.ok result) now [] db).db.checks
        = db.checks ++ [⟨db.nextId, m, result.state, true⟩]
      ∧ Event.firstObservation m result.state
          ∈ (runCheck cfg m (.ok result) now [] db).events := by
  rw [runCheck_ok_nil]
  simp [hprev, htopic, saveState]

theorem runCheck_firstObservation_witness :
    (runCheck ⟨some "t", none⟩ "x" (.ok ⟨"a", "s"⟩) 0 [] ⟨[], 0, []⟩).db.checks
        = [] ++ [⟨0, "x", "a", true⟩]
      ∧ Event.firstObservation "x" "a"
          ∈ (runCheck ⟨some "t", none⟩ "x" (.ok ⟨"a", "s"⟩) 0 []
              ⟨[], 0, []⟩).events :=
  runCheck_firstObservation ⟨some "t", none⟩ "t" "x" ⟨"a", "s"⟩ 0 ⟨[], 0, []⟩
    rfl rfl

/-! ## C3: the state-transition branches and the notified flag -/

/-- C3 counterexample: with a debug channel configured and the state
unchanged, the persisted CheckRecord still carries notified = false (the
debug channel only adds a DebugPing delivery); the claim exempts the
debug-configured case from notified = false, i.e. it expects the flag to
depend on the debug channel, which it does not. -/
theorem unchanged_debug_notified_false_cex :
    (Config.mk (some "t") (some "d")).ntfyDebugTopic ≠ none
      ∧ (runCheck ⟨some "t", some "d"⟩ "x" (.ok ⟨"a", "s"⟩) 1 []
            ⟨[⟨0, "x", "a", true⟩], 1, []⟩).db.checks
          = [⟨0, "x", "a", true⟩, ⟨1, "x", "a", false⟩]
      ∧ Event.debugPing "x" "a"
          ∈ (runCheck ⟨some "t", some "d"⟩ "x" (.ok ⟨"a", "s"⟩) 1 []
              ⟨[⟨0, "x", "a", true⟩], 1, []⟩).events := by
  refine ⟨by simp, rfl, ?_⟩
  rw [runCheck_ok_nil]
  simp [getLastState]

/-- C3 (amended): with at least one prior CheckRecord, a state change
dispatches a notification and persists the new CheckRecord with
notified = true; an unchanged state persists the CheckRecord with
notified = false regardless of the debug channel, a configured debug
channel only adding a DebugPing dispatch. -/
theorem runCheck_transition (cfg : Config) (topic m prev : String)
    (result : CheckResult) (now : Nat) (db : DB)
    (htopic : cfg.ntfyTopic = some topic)
    (hprev : getLastState db m = some prev) :
    (result.state ≠ prev →
        (runCheck cfg m (.ok result) now [] db).db.checks
            = db.checks ++ [⟨db.nextId, m, result.state, true⟩]
          ∧ Event.stateChanged m result.state prev
              ∈ (runCheck cfg m (.ok result) now [] db).events)
      ∧ (result.state = prev →
        (runCheck cfg m (.ok result) now [] db).db.checks
            = db.checks ++ [⟨db.nextId, m, result.state, false⟩]
          ∧ (cfg.ntfyDebugTopic.isSome →
              Event.debugPing m result.state
                ∈ (runCheck cfg m (.ok result) now [] db).events)) := by
  rw [runCheck_ok_nil]
  constructor
  · intro hne
    simp [hprev, htopic, hne, saveState]
  · intro heq
    cases hdbg : cfg.ntfyDebugTopic <;>
      simp [hprev, htopic, heq, hdbg, saveState]

theorem runCheck_transition_witness :
    ("b" ≠ "a"
        → (runCheck ⟨some "t", none⟩ "x" (.ok ⟨"b", "s"⟩) 1 []
              ⟨[⟨0, "x", "a", true⟩], 1, []⟩).db.checks
            = [⟨0, "x", "a", true⟩] ++ [⟨1, "x", "b", true⟩]
          ∧ Event.stateChanged "x" "b" "a"
              ∈ (runCheck ⟨some "t", none⟩ "x" (.ok ⟨"b", "s"⟩) 1 []
                  ⟨[⟨0, "x", "a", true⟩], 1, []⟩).events)
      ∧ ("b" = "a"
        → (runCheck ⟨some "t", none⟩ "x" (.ok ⟨"b", "s"⟩) 1 []
              ⟨[⟨0, "x", "a", true⟩], 1, []⟩).db.checks
            = [⟨0, "x", "a", true⟩] ++ [⟨1, "x", "b", false⟩]
          ∧ ((Config.mk (some "t") none).ntfyDebugTopic.isSome →
              Event.debugPing "x" "b"
                ∈ (runCheck ⟨some "t", none⟩ "x" (.ok ⟨"b", "s"⟩) 1 []
                    ⟨[⟨0, "x", "a", true⟩], 1, []⟩).events)) :=
  runCheck_transition ⟨some "t", none⟩ "t" "x" "a" ⟨"b", "s"⟩ 1
    ⟨[⟨0, "x", "a", true⟩], 1, []⟩ rfl rfl

/-! ## C2: recovery after an error streak -/

/-- C2: on a successful probe with a live streak (notified flag `b`), the
streak record is deleted either way; exactly one Recovery event is emitted
when the streak was notified and none when it was not; and when it is
emitted it is the first event of the pass, before any content-state
event. -/
theorem runCheck_recovery (cfg : Config) (topic m : String) (b : Bool)
    (t0 : Nat) (result : CheckResult) (now : Nat) (db : DB)
    (hs : getStreak db.streaks m = some ⟨t0, b⟩)
    (htopic : cfg.ntfyTopic = some topic) :
    getStreak (runCheck cfg m (.ok result) now [] db).db.streaks m = none
      ∧ (runCheck cfg m (.ok result) now [] db).events.count (Event.recovery m)
          = (if b then 1 else 0)
      ∧ (b = true →
          (runCheck cfg m (.ok result) now [] db).events.head?
            = some (Event.recovery m)) := by
  rw [runCheck_ok_nil]
  cases hprev : getLastState db m with
  | none =>
    cases b <;>
      simp [hs, htopic, hprev, getStreak_deleteStreak_self, List.count_cons]
  | some prev =>
    by_cases hne : result.state = prev <;> cases hdbg : cfg.ntfyDebugTopic <;>
      cases b <;>
        simp [hs, htopic, hprev, hdbg, hne, getStreak_deleteStreak_self,
          List.count_cons]

theorem runCheck_recovery_witness :
    (getStreak (runCheck ⟨some "t", none⟩ "x" (.ok ⟨"a", "s"⟩) 20 []
        ⟨[⟨0, "x", "a", true⟩], 1, [("x", ⟨2, true⟩)]⟩).db.streaks "x" = none
      ∧ (runCheck ⟨some "t", none⟩ "x" (.ok ⟨"a", "s"⟩) 20 []
          ⟨[⟨0, "x", "a", true⟩], 1, [("x", ⟨2, true⟩)]⟩).events.count
            (Event.recovery "x") = (if true then 1 else 0)
      ∧ (true = true →
          (runCheck ⟨some "t", none⟩ "x" (.ok ⟨"a", "s"⟩) 20 []
            ⟨[⟨0, "x", "a", true⟩], 1, [("x", ⟨2, true⟩)]⟩).events.head?
              = some (Event.recovery "x"))) :=
  runCheck_recovery ⟨some "t", none⟩ "t" "x" true 2 ⟨"a", "s"⟩ 20
    ⟨[⟨0, "x", "a", true⟩], 1, [("x", ⟨2, true⟩)]⟩ rfl rfl

/-! ## C7: a failing probe leaves the checks table untouched -/

/-- C7: on a probe failure the catch block runs instead of the
content-state logic: the checks table (and so the last persisted state of
every monitor) is unchanged, and any event emitted at such a tick is the
error-threshold alert, never a content-state notification. -/
theorem runCheck_failure_frame (cfg : Config) (m msg : String) (now : Nat)
    (net : List Bool) (db : DB) :
    (runCheck cfg m (.error msg) now net db).db.checks = db.checks
      ∧ (∀ m2, getLastState (runCheck cfg m (.error msg) now net db).db m2
          = getLastState db m2)
      ∧ ∀ e ∈ (runCheck cfg m (.error msg) now net db).events,
          e = Event.errorThreshold m := by
  rw [runCheck_error]
  unfold handleFailure
  cases hs : getStreak db.streaks m with
  | none => simp [getLastState]
  | some s =>
    by_cases hb : s.notified
    · simp [hb]
    · by_cases ht : s.startedAt + 15 ≤ now
      · rcases hsend : notifyError cfg m net with ⟨ev, net1, err⟩
        cases err with
        | none =>
          have hev : ∀ e ∈ ev.toList, e = Event.errorThreshold m := by
            intro e he
            have : ev = some e := by
              cases ev <;> simp_all
            unfold notifyError sendNotification at hsend
            cases hcfg : cfg.ntfyTopic <;> rw [hcfg] at hsend
            · simp_all
            · simp_all
              split at hsend <;> simp_all
          simp [hb, ht, hsend, getLastState]
          exact fun e he => hev e (by simpa using he)
        | some e => simp [hb, ht, hsend]
      · simp [hb, ht]

/-! ## C1: the 15-minute error-streak debounce -/

/-- Once the streak is notified, further failing ticks are no-ops: no
event, database untouched. -/
theorem runTicks_failing_notified (cfg : Config) (m msg : String) (t0 : Nat)
    (ts : List Nat) (db : DB)
    (h : getStreak db.streaks m = some ⟨t0, true⟩) :
    runTicks cfg m (ts.map fun t => (t, .error msg)) db = (db, []) := by
  induction ts with
  | nil => rfl
  | cons t rest ih =>
    simp [runTicks, runCheck_error, handleFailure_notified cfg m t0 t [] db h,
      ih]

/-- From a live non-notified streak started at `t0`, a run of failing
ticks emits the error-threshold alert exactly at the first tick at or past
`t0 + 15` (and no alert when no tick reaches it), and the streak's
notified flag ends up true exactly when some tick reached it. -/
theorem runTicks_failing_active (cfg : Config) (topic m msg : String)
    (t0 : Nat) (htopic : cfg.ntfyTopic = some topic) (ts : List Nat) :
    ∀ db : DB, getStreak db.streaks m = some ⟨t0, false⟩ →
      (runTicks cfg m (ts.map fun t => (t, .error msg)) db).2
          = (match ts.find? (fun t => decide (t0 + 15 ≤ t)) with
             | some t => [(t, Event.errorThreshold m)]
             | none => [])
        ∧ getStreak
            (runTicks cfg m (ts.map fun t => (t, .error msg)) db).1.streaks m
          = some ⟨t0, ts.any (fun t => decide (t0 + 15 ≤ t))⟩ := by
  induction ts with
  | nil =>
    intro db h
    simpa [runTicks] using h
  | cons t rest ih =>
    intro db h
    by_cases hov : t0 + 15 ≤ t
    · have hfire := handleFailure_overdue_nil cfg topic m t0 t db h hov htopic
      have hafter :
          getStreak (setStreakNotified db.streaks m) m = some ⟨t0, true⟩ := by
        rw [getStreak_setStreakNotified_self, h]
        rfl
      have hrest := runTicks_failing_notified cfg m msg t0 rest
        { db with streaks := setStreakNotified db.streaks m } hafter
      simp [runTicks, runCheck_error, hfire, hrest, List.find?_cons, hov,
        List.any_cons, hafter]
    · have hskip := handleFailure_young cfg m t0 t [] db h hov
      have hrest := ih db h
      simp [runTicks, runCheck_error, hskip, List.find?_cons, hov,
        List.any_cons, hrest.1, hrest.2]

/-- C1: a target with no live streak that fails at `t0` and at every
subsequent tick emits exactly one ErrorThreshold event, at the first
failing tick `t` with `t0 + 15 ≤ t`, never earlier and never twice; the
streak's notified flag ends true exactly when such a tick occurred, so it
transitions false to true at most once per streak. -/
theorem errorThreshold_exactly_once (cfg : Config) (topic m msg : String)
    (t0 : Nat) (ts : List Nat) (db : DB)
    (htopic : cfg.ntfyTopic = some topic)
    (hs : getStreak db.streaks m = none) :
    (runTicks cfg m ((t0 :: ts).map fun t => (t, .error msg)) db).2
        = (match ts.find? (fun t => decide (t0 + 15 ≤ t)) with
           | some t => [(t, Event.errorThreshold m)]
           | none => [])
      ∧ getStreak
          (runTicks cfg m ((t0 :: ts).map fun t => (t, .error msg)) db).1.streaks
          m
        = some ⟨t0, ts.any (fun t => decide (t0 + 15 ≤ t))⟩ := by
  have hstart := handleFailure_noStreak cfg m t0 [] db hs
  have hcons :
      getStreak ((m, (⟨t0, false⟩ : StreakRow)) :: db.streaks) m
        = some ⟨t0, false⟩ := by
    simp
  have hrest := runTicks_failing_active cfg topic m msg t0 htopic ts
    { db with streaks := (m, ⟨t0, false⟩) :: db.streaks } hcons
  simp [runTicks, runCheck_error, hstart, hrest.1, hrest.2]

theorem errorThreshold_exactly_once_witness :
    ((runTicks ⟨some "t", none⟩ "x"
        (([0, 1, 14, 15, 16] : List Nat).map fun t => (t, .error "boom"))
        ⟨[], 0, []⟩).2
      = [(15, Event.errorThreshold "x")]
    ∧ getStreak (runTicks ⟨some "t", none⟩ "x"
        (([0, 1, 14, 15, 16] : List Nat).map fun t => (t, .error "boom"))
        ⟨[], 0, []⟩).1.streaks "x" = some ⟨0, true⟩) := by
  have h := errorThreshold_exactly_once ⟨some "t", none⟩ "t" "x" "boom" 0
    [1, 14, 15, 16] ⟨[], 0, []⟩ rfl rfl
  simpa using h

/-! ## C4: dispatch failure versus state persistence -/

/-- C4 counterexample: a state change is observed but the notification
delivery fails; the pass ends with the checks table unchanged — the new
CheckRecord is NOT appended — and a fresh error streak started at this
tick, because the dispatch exception is handled by the same catch block as
a probe failure. -/
theorem dispatchFailure_blocks_persist_cex :
    (runCheck ⟨some "t", none⟩ "x" (.ok ⟨"b", "s"⟩) 100 [false]
        ⟨[⟨0, "x", "a", true⟩], 1, []⟩).db.checks = [⟨0, "x", "a", true⟩]
      ∧ getStreak (runCheck ⟨some "t", none⟩ "x" (.ok ⟨"b", "s"⟩) 100 [false]
          ⟨[⟨0, "x", "a", true⟩], 1, []⟩).db.streaks "x"
        = some ⟨100, false⟩
      ∧ (runCheck ⟨some "t", none⟩ "x" (.ok ⟨"b", "s"⟩) 100 [false]
          ⟨[⟨0, "x", "a", true⟩], 1, []⟩).escaped = none := by
  refine ⟨rfl, ?_, rfl⟩
  rfl

/-- C4 (amended): a failed notification delivery in the success path is
caught by the per-target boundary (nothing escapes, so other targets and
their rows are unaffected, and the earlier streak delete stands), but it
does block persistence: no CheckRecord is appended for the pass, and the
failure is treated like a probe failure, starting a fresh error streak at
this tick. -/
theorem dispatchFailure_contained (cfg : Config) (topic m prev : String)
    (result : CheckResult) (now : Nat) (db : DB)
    (htopic : cfg.ntfyTopic = some topic)
    (hs : getStreak db.streaks m = none)
    (hprev : getLastState db m = some prev)
    (hne : result.state ≠ prev) :
    (runCheck cfg m (.ok result) now [false] db).db.checks = db.checks
      ∧ getStreak (runCheck cfg m (.ok result) now [false] db).db.streaks m
          = some ⟨now, false⟩
      ∧ (runCheck cfg m (.ok result) now [false] db).escaped = none
      ∧ ∀ m', m' ≠ m →
          getStreak (runCheck cfg m (.ok result) now [false] db).db.streaks m'
            = getStreak db.streaks m' := by
  have hrec : ((getStreak db.streaks m).map (·.notified)).getD false = false := by
    rw [hs]
    rfl
  have hsend :
      sendNotification cfg none (Event.stateChanged m result.state prev) [false]
        = (none, [], some "ntfy error") := by
    simp [sendNotification, htopic, Option.orElse]
  have hcatch := handleFailure_noStreak cfg m now []
    { db with streaks := deleteStreak db.streaks m }
    (getStreak_deleteStreak_self db.streaks m)
  simp only [runCheck, hrec, Bool.false_eq_true, if_false, hprev,
    getLastState_update_streaks, hne, ne_eq, not_false_eq_true, if_true,
    hsend, finishPass, hcatch]
  refine ⟨trivial, by simp, trivial, ?_⟩
  intro m' hm'
  have hmm : m ≠ m' := Ne.symm hm'
  simp [getStreak, hmm, getStreak_deleteStreak_ne db.streaks m m' hm']

theorem dispatchFailure_contained_witness :
    ((runCheck ⟨some "t", none⟩ "x" (.ok ⟨"b", "s"⟩) 100 [false]
        ⟨[⟨0, "x", "a", true⟩], 1, [("y", ⟨3, true⟩)]⟩).db.checks
        = [⟨0, "x", "a", true⟩]
      ∧ getStreak (runCheck ⟨some "t", none⟩ "x" (.ok ⟨"b", "s"⟩) 100 [false]
          ⟨[⟨0, "x", "a", true⟩], 1, [("y", ⟨3, true⟩)]⟩).db.streaks "x"
        = some ⟨100, false⟩
      ∧ (runCheck ⟨some "t", none⟩ "x" (.ok ⟨"b", "s"⟩) 100 [false]
          ⟨[⟨0, "x", "a", true⟩], 1, [("y", ⟨3, true⟩)]⟩).escaped = none
      ∧ ∀ m', m' ≠ "x" →
          getStreak (runCheck ⟨some "t", none⟩ "x" (.ok ⟨"b", "s"⟩) 100 [false]
            ⟨[⟨0, "x", "a", true⟩], 1, [("y", ⟨3, true⟩)]⟩).db.streaks m'
          = getStreak [("y", ⟨3, true⟩)] m') :=
  dispatchFailure_contained ⟨some "t", none⟩ "t" "x" "a" ⟨"b", "s"⟩ 100
    ⟨[⟨0, "x", "a", true⟩], 1, [("y", ⟨3, true⟩)]⟩ rfl rfl rfl
    (by decide)

/-! ## C6: per-target isolation within one orchestration pass -/

/-- C6 counterexample: monitor x is in an overdue error streak and the
error-threshold alert delivery fails; the exception escapes the catch
block, so the pass stops after x and monitor y is never processed. -/
theorem dispatchFailure_aborts_pass_cex :
    (runAllChecks ⟨some "t", none⟩
        [("x", .error "boom"), ("y", .ok ⟨"a", "s"⟩)] 20 [false]
        ⟨[], 0, [("x", ⟨0, false⟩)]⟩).2.2
      = (["x"], some "ntfy error") := by
  rfl

/-- Under an all-successful delivery environment, one monitor's pass never
throws and consumes no outcomes. -/
theorem runCheck_nil_stable (cfg : Config) (m : String)
    (probe : Except String CheckResult) (now : Nat) (db : DB) :
    (runCheck cfg m probe now [] db).net = []
      ∧ (runCheck cfg m probe now [] db).escaped = none := by
  cases probe with
  | error msg =>
    rw [runCheck_error]
    unfold handleFailure
    cases hs : getStreak db.streaks m with
    | none => simp
    | some s =>
      by_cases hb : s.notified
      · simp [hb]
      · by_cases ht : s.startedAt + 15 ≤ now
        · simp [hb, ht, notifyError_nil]
        · simp [hb, ht]
  | ok result =>
    rw [runCheck_ok_nil]
    cases hprev : getLastState db m with
    | none => simp
    | some prev =>
      by_cases hne : result.state = prev <;> cases hdbg : cfg.ntfyDebugTopic <;>
        simp [hne, hdbg]

/-- C6 (amended): a probe failure — and any failure in one target's
pipeline other than a delivery failure of the over-threshold error alert —
never propagates to another target: when deliveries succeed, every enabled
target of the pass is processed, whatever each probe returns, and the pass
is never aborted.  (The counterexample shows the remaining case: a failed
error-alert delivery inside the catch block does abort the pass.) -/
theorem pass_processes_all_targets (cfg : Config)
    (inputs : List (String × Except String CheckResult)) (now : Nat) :
    ∀ db : DB,
      (runAllChecks cfg inputs now [] db).2.2.1 = inputs.map Prod.fst
        ∧ (runAllChecks cfg inputs now [] db).2.2.2 = none := by
  induction inputs with
  | nil =>
    intro db
    exact ⟨rfl, rfl⟩
  | cons p rest ih =>
    intro db
    obtain ⟨m, probe⟩ := p
    obtain ⟨hnet, hesc⟩ := runCheck_nil_stable cfg m probe now db
    have ihdb := ih (runCheck cfg m probe now [] db).db
    simp only [runAllChecks, hesc, hnet, List.map_cons]
    exact ⟨by rw [ihdb.1], ihdb.2⟩

/-! ## C8: last state and per-target scoping of the store -/

/-- In a list with strictly increasing ids, the last element has the
maximal id. -/
theorem getLast?_isMax (l : List CheckRow)
    (hp : l.Pairwise (fun a b => a.id < b.id)) (r : CheckRow)
    (h : l.getLast? = some r) :
    r ∈ l ∧ ∀ x ∈ l, x.id ≤ r.id := by
  induction l with
  | nil => cases h
  | cons a l ih =>
    rw [List.pairwise_cons] at hp
    cases l with
    | nil =>
      have hra : r = a := by simpa using h.symm
      subst hra
      simp
    | cons c l2 =>
      rw [List.getLast?_cons_cons] at h
      obtain ⟨hmem, hmax⟩ := ih hp.2 h
      refine ⟨List.mem_cons_of_mem _ hmem, ?_⟩
      intro x hx
      rcases List.mem_cons.mp hx with hxa | hxl
      · subst hxa
        exact le_of_lt (hp.1 r hmem)
      · exact hmax x hxl

/-- C8: on a well-formed table, `getLastState` returns the state of the
target's record with the highest id, and `none` exactly when the target
has no records; and each mutating store operation scoped to target `m`
leaves every other target's checks rows and streak row unchanged. -/
theorem store_scoped (db : DB) (m m' st : String) (b : Bool) (r : StreakRow)
    (hwf : dbWF db) (hne : m' ≠ m) :
    (∀ s, getLastState db m = some s →
        ∃ row ∈ db.checks, row.monitor = m ∧ row.state = s ∧
          ∀ row2 ∈ db.checks, row2.monitor = m → row2.id ≤ row.id)
      ∧ (getLastState db m = none ↔ ∀ row ∈ db.checks, row.monitor ≠ m)
      ∧ (saveState db m st b).checks.filter
            (fun row => (row.monitor = m' : Bool))
          = db.checks.filter (fun row => (row.monitor = m' : Bool))
      ∧ getStreak (deleteStreak db.streaks m) m' = getStreak db.streaks m'
      ∧ getStreak (setStreakNotified db.streaks m) m' = getStreak db.streaks m'
      ∧ getStreak ((m, r) :: db.streaks) m' = getStreak db.streaks m' := by
  refine ⟨?_, ?_, ?_, getStreak_deleteStreak_ne db.streaks m m' hne,
    getStreak_setStreakNotified_ne db.streaks m m' hne, ?_⟩
  · intro s hsome
    unfold getLastState at hsome
    rw [Option.map_eq_some'] at hsome
    obtain ⟨row, hlast, hstate⟩ := hsome
    have hpf : (db.checks.filter
        (fun q => (q.monitor = m : Bool))).Pairwise (fun a c => a.id < c.id) :=
      hwf.1.filter _
    obtain ⟨hmem, hmax⟩ := getLast?_isMax _ hpf row hlast
    rw [List.mem_filter] at hmem
    refine ⟨row, hmem.1, by simpa using hmem.2, hstate, ?_⟩
    intro row2 h2 hm2
    exact hmax row2 (List.mem_filter.mpr ⟨h2, by simpa using hm2⟩)
  · unfold getLastState
    rw [Option.map_eq_none', List.getLast?_eq_none_iff, List.filter_eq_nil_iff]
    simp
  · simp only [saveState, List.filter_append]
    have : (List.filter (fun row => (row.monitor = m' : Bool))
        [(⟨db.nextId, m, st, b⟩ : CheckRow)]) = [] := by
      simp [List.filter, Ne.symm hne]
    rw [this, List.append_nil]
  · simp [getStreak, Ne.symm hne]

theorem store_scoped_witness :
    ((∀ s, getLastState ⟨[⟨0, "x", "a", true⟩, ⟨1, "y", "c", false⟩,
          ⟨2, "x", "b", false⟩], 3, [("x", ⟨1, false⟩)]⟩ "x" = some s →
        ∃ row ∈ [⟨0, "x", "a", true⟩, ⟨1, "y", "c", false⟩,
            (⟨2, "x", "b", false⟩ : CheckRow)], row.monitor = "x"
          ∧ row.state = s
          ∧ ∀ row2 ∈ [⟨0, "x", "a", true⟩, ⟨1, "y", "c", false⟩,
              (⟨2, "x", "b", false⟩ : CheckRow)],
                row2.monitor = "x" → row2.id ≤ row.id)
      ∧ (getLastState ⟨[⟨0, "x", "a", true⟩, ⟨1, "y", "c", false⟩,
            ⟨2, "x", "b", false⟩], 3, [("x", ⟨1, false⟩)]⟩ "x" = none
          ↔ ∀ row ∈ [⟨0, "x", "a", true⟩, ⟨1, "y", "c", false⟩,
              (⟨2, "x", "b", false⟩ : CheckRow)], row.monitor ≠ "x")
      ∧ (saveState ⟨[⟨0, "x", "a", true⟩, ⟨1, "y", "c", false⟩,
            ⟨2, "x", "b", false⟩], 3, [("x", ⟨1, false⟩)]⟩ "x" "b"
            true).checks.filter (fun row => (row.monitor = "y" : Bool))
          = List.filter (fun row => (row.monitor = "y" : Bool))
              [⟨0, "x", "a", true⟩, ⟨1, "y", "c", false⟩,
                (⟨2, "x", "b", false⟩ : CheckRow)]
      ∧ getStreak (deleteStreak [("x", ⟨1, false⟩)] "x") "y"
          = getStreak [("x", ⟨1, false⟩)] "y"
      ∧ getStreak (setStreakNotified [("x", ⟨1, false⟩)] "x") "y"
          = getStreak [("x", ⟨1, false⟩)] "y"
      ∧ getStreak (("x", (⟨7, false⟩ : StreakRow)) :: [("x", ⟨1, false⟩)]) "y"
          = getStreak [("x", ⟨1, false⟩)] "y") :=
  store_scoped ⟨[⟨0, "x", "a", true⟩, ⟨1, "y", "c", false⟩,
      ⟨2, "x", "b", false⟩], 3, [("x", ⟨1, false⟩)]⟩ "x" "y" "b" true
    ⟨7, false⟩ (by constructor <;> decide) (by decide)

/-! ## C9: the enable/disable surface -/

/-- C9: a registered monitor is in the enabled set iff the environment
variable MONITOR_<NAME> (name upper-cased) is not the exact string
"false"; unset or any other value leaves it enabled. -/
theorem monitor_enabled_iff (env : String → Option String)
    (all : List String) (name : String) :
    name ∈ enabledMonitors env all
      ↔ name ∈ all ∧ env ("MONITOR_" ++ name.toUpper) ≠ some "false" := by
  simp [enabledMonitors, monitorEnabled, List.mem_filter]

/-! ## C10: unset primary topic -/

theorem sendNotification_noTopic (cfg : Config) (h : cfg.ntfyTopic = none)
    (ev : Event) (net : List Bool) :
    sendNotification cfg none ev net = (none, net, none) := by
  simp [sendNotification, Option.orElse, h]

theorem notifyRecovery_noTopic (cfg : Config) (h : cfg.ntfyTopic = none)
    (m : String) (net : List Bool) :
    notifyRecovery cfg m net = (none, net, none) := by
  unfold notifyRecovery
  rw [h]

theorem notifyError_noTopic (cfg : Config) (h : cfg.ntfyTopic = none)
    (m : String) (net : List Bool) :
    notifyError cfg m net = (none, net, none) := by
  unfold notifyError
  rw [h]

/-- C10: with NTFY_TOPIC unset, every primary-channel dispatch call
returns without error and without a delivery attempt, and the bookkeeping
runs as if delivery had succeeded: a first observation and a state change
still persist their CheckRecord with notified = true, and an overdue
streak still gets its notified flag set — each with no event delivered,
the delivery environment untouched, and nothing thrown. -/
theorem topic_unset_bookkeeping (cfg : Config) (hU : cfg.ntfyTopic = none) :
    (∀ ev net, sendNotification cfg none ev net = (none, net, none))
      ∧ (∀ m result now net db, getLastState db m = none →
          (runCheck cfg m (.ok result) now net db).db.checks
              = db.checks ++ [⟨db.nextId, m, result.state, true⟩]
            ∧ (runCheck cfg m (.ok result) now net db).events = []
            ∧ (runCheck cfg m (.ok result) now net db).net = net
            ∧ (runCheck cfg m (.ok result) now net db).escaped = none)
      ∧ (∀ m prev result now net db, getLastState db m = some prev →
          result.state ≠ prev →
          (runCheck cfg m (.ok result) now net db).db.checks
              = db.checks ++ [⟨db.nextId, m, result.state, true⟩]
            ∧ (runCheck cfg m (.ok result) now net db).events = []
            ∧ (runCheck cfg m (.ok result) now net db).net = net
            ∧ (runCheck cfg m (.ok result) now net db).escaped = none)
      ∧ (∀ m msg t0 now net db, getStreak db.streaks m = some ⟨t0, false⟩ →
          t0 + 15 ≤ now →
          getStreak (runCheck cfg m (.error msg) now net db).db.streaks m
              = some ⟨t0, true⟩
            ∧ (runCheck cfg m (.error msg) now net db).events = []
            ∧ (runCheck cfg m (.error msg) now net db).escaped = none) := by
  refine ⟨sendNotification_noTopic cfg hU, ?_, ?_, ?_⟩
  · intro m result now net db hprev
    simp [runCheck, notifyRecovery_noTopic cfg hU, hprev,
      sendNotification_noTopic cfg hU, finishPass, saveState]
  · intro m prev result now net db hprev hne
    simp [runCheck, notifyRecovery_noTopic cfg hU, hprev, hne,
      sendNotification_noTopic cfg hU, finishPass, saveState]
  · intro m msg t0 now net db hs ht
    rw [runCheck_error]
    unfold handleFailure
    rw [hs]
    simp [ht, notifyError_noTopic cfg hU, getStreak_setStreakNotified_self, hs]

theorem topic_unset_bookkeeping_witness :
    (sendNotification ⟨none, none⟩ none (Event.recovery "x") [false]
        = (none, [false], none))
      ∧ ((runCheck ⟨none, none⟩ "x" (.ok ⟨"a", "s"⟩) 0 [false]
            ⟨[], 0, []⟩).db.checks = [] ++ [⟨0, "x", "a", true⟩]
          ∧ (runCheck ⟨none, none⟩ "x" (.ok ⟨"a", "s"⟩) 0 [false]
              ⟨[], 0, []⟩).events = []
          ∧ (runCheck ⟨none, none⟩ "x" (.ok ⟨"a", "s"⟩) 0 [false]
              ⟨[], 0, []⟩).net = [false]
          ∧ (runCheck ⟨none, none⟩ "x" (.ok ⟨"a", "s"⟩) 0 [false]
              ⟨[], 0, []⟩).escaped = none)
      ∧ (getStreak (runCheck ⟨none, none⟩ "x" (.error "boom") 20 [false]
            ⟨[], 0, [("x", ⟨0, false⟩)]⟩).db.streaks "x" = some ⟨0, true⟩
          ∧ (runCheck ⟨none, none⟩ "x" (.error "boom") 20 [false]
              ⟨[], 0, [("x", ⟨0, false⟩)]⟩).events = []
          ∧ (runCheck ⟨none, none⟩ "x" (.error "boom") 20 [false]
              ⟨[], 0, [("x", ⟨0, false⟩)]⟩).escaped = none) := by
  have h := topic_unset_bookkeeping ⟨none, none⟩ rfl
  exact ⟨h.1 (Event.recovery "x") [false],
    h.2.1 "x" ⟨"a", "s"⟩ 0 [false] ⟨[], 0, []⟩ rfl,
    h.2.2.2 "x" "boom" 0 20 [false] ⟨[], 0, [("x", ⟨0, false⟩)]⟩ rfl
      (by decide)⟩

end WebsiteMonitor
